import Mathlib

/-!
Verification of the now-working attendance tracker.

The development shallowly embeds the repository's TypeScript services and
chat adapters:

* `WorkingSessionService` (src/src/services/WorkingSessionService.ts):
  `checkin`, `checkout`, `getActiveSession`, `getAllActiveSessions`,
  `getSessionsByDateRange`, `getMonthlyReport`.
* `OrganizationService.getUserOrganizations` and the `UserService` lookups.
* The Chatwork webhook handler (command parsing and command dispatch) and
  the Slack slash-command handlers.

Timestamps are modelled as integer milliseconds on a single fixed-offset
timeline (JavaScript `Date.getTime()` values); the Prisma session table is a
list of records together with a counter supplying fresh ids; `findFirst`
returns the first record of the table that matches, `create` appends, and
`update` rewrites the record with the given id.  Durations, which the source
computes as JavaScript floating-point numbers, are modelled as rationals.
-/

/-- A row of the Prisma `WorkingSession` model: owning (user, organization)
pair, start timestamp `checkinAt`, optional end timestamp `checkoutAt` and
optional free-text `note`. -/
structure WorkingSession where
  id : Nat
  userId : String
  organizationId : String
  checkinAt : Int
  checkoutAt : Option Int
  note : Option String
deriving DecidableEq

/-- The session table: persisted rows plus a counter supplying fresh ids. -/
structure SessionDB where
  sessions : List WorkingSession
  nextId : Nat
deriving DecidableEq

/-- Error message thrown by `WorkingSessionService.checkin` when an open
session already exists (the AlreadyCheckedIn condition). -/
def alreadyCheckedInMsg : String :=
  "既にチェックインしています。先にチェックアウトしてください。"

/-- Error message thrown by `WorkingSessionService.checkout` when no open
session exists (the NotCheckedIn condition). -/
def notCheckedInMsg : String :=
  "チェックインしていません。先にチェックインしてください。"

/-- The `where` clause of `prisma.workingSession.findFirst` used by
`getActiveSession`: same user, same organization, `checkoutAt: null`. -/
def openFor (u o : String) (s : WorkingSession) : Bool :=
  s.userId == u && s.organizationId == o && s.checkoutAt.isNone

/-- `WorkingSessionService.getActiveSession`: first session of the pair whose
`checkoutAt` is null. -/
def getActiveSession (db : SessionDB) (u o : String) : Option WorkingSession :=
  db.sessions.find? (openFor u o)

/-- `WorkingSessionService.checkin`: if an open session exists, throw
AlreadyCheckedIn (the store is left untouched); otherwise create a session
with `checkinAt = now`, null `checkoutAt` and the given note. -/
def checkin (db : SessionDB) (u o : String) (note : Option String) (now : Int) :
    Except String WorkingSession × SessionDB :=
  match getActiveSession db u o with
  | some _ => (.error alreadyCheckedInMsg, db)
  | none =>
      let s : WorkingSession := ⟨db.nextId, u, o, now, none, note⟩
      (.ok s, ⟨db.sessions ++ [s], db.nextId + 1⟩)

/-- JavaScript `note || activeSession.note` from `checkout`: the new note is
kept only when it is a supplied, non-empty string; otherwise the old note
stands. -/
def jsNoteOr (newNote oldNote : Option String) : Option String :=
  match newNote with
  | some s => if s = "" then oldNote else some s
  | none => oldNote

/-- The record written by `prisma.workingSession.update` in `checkout`:
`checkoutAt = now` and the `note || activeSession.note` note. -/
def closeSession (a : WorkingSession) (now : Int) (note : Option String) :
    WorkingSession :=
  { a with checkoutAt := some now, note := jsNoteOr note a.note }

/-- `WorkingSessionService.checkout`: if no open session exists, throw
NotCheckedIn (the store is left untouched); otherwise update the open
session's row with `checkoutAt = now` and the merged note. -/
def checkout (db : SessionDB) (u o : String) (note : Option String) (now : Int) :
    Except String WorkingSession × SessionDB :=
  match getActiveSession db u o with
  | none => (.error notCheckedInMsg, db)
  | some a =>
      let s := closeSession a now note
      (.ok s, ⟨db.sessions.map (fun t => if t.id == a.id then s else t), db.nextId⟩)

/-- `WorkingSessionService.getAllActiveSessions`: all open sessions of the
organization, in table order. -/
def getAllActiveSessions (db : SessionDB) (o : String) : List WorkingSession :=
  db.sessions.filter (fun s => s.organizationId == o && s.checkoutAt.isNone)

/-- Comparison used by the `orderBy: checkinAt asc` clause of
`getSessionsByDateRange`. -/
def sessionLe (s t : WorkingSession) : Prop :=
  s.checkinAt ≤ t.checkinAt

instance : DecidableRel sessionLe := fun s t =>
  inferInstanceAs (Decidable (s.checkinAt ≤ t.checkinAt))

instance : IsTotal WorkingSession sessionLe :=
  ⟨fun s t => Int.le_total s.checkinAt t.checkinAt⟩

instance : IsTrans WorkingSession sessionLe :=
  ⟨fun _ _ _ h h' => le_trans h h'⟩

/-- The `where` clause of `getSessionsByDateRange`: same pair, and
`checkinAt` between `startDate` and `endDate`, both inclusive (`gte`/`lte`). -/
def inDateRange (u o : String) (startDate endDate : Int) (s : WorkingSession) : Bool :=
  s.userId == u && s.organizationId == o &&
    decide (startDate ≤ s.checkinAt) && decide (s.checkinAt ≤ endDate)

/-- `WorkingSessionService.getSessionsByDateRange`: the matching rows ordered
by `checkinAt` ascending. -/
def getSessionsByDateRange (db : SessionDB) (u o : String)
    (startDate endDate : Int) : List WorkingSession :=
  List.insertionSort sessionLe (db.sessions.filter (inDateRange u o startDate endDate))

/-- Days since 1970-01-01 of the civil date `(y, m, d)` with `m` between 1
and 12; the day field acts as a plain offset from the first of the month, so
day 0 is the last day of the previous month, exactly as in the JavaScript
`Date` constructor. -/
def daysFromCivil (y m d : Int) : Int :=
  let y' := if m ≤ 2 then y - 1 else y
  let era := Int.fdiv y' 400
  let yoe := y' - era * 400
  let mp := Int.emod (m + 9) 12
  let doy := Int.fdiv (153 * mp + 2) 5 + d - 1
  let doe := yoe * 365 + Int.fdiv yoe 4 - Int.fdiv yoe 100 + doy
  era * 146097 + doe - 719468

/-- Milliseconds of `new Date(y, monthIndex, d, hh, mi, ss)` on the model's
fixed-offset timeline.  `monthIndex` is 0-based and arbitrary month and day
values roll over, as in JavaScript. -/
def jsDateMs (y monthIndex d hh mi ss : Int) : Int :=
  (daysFromCivil (Int.fdiv (y * 12 + monthIndex) 12)
      (Int.emod (y * 12 + monthIndex) 12 + 1) d * 86400 +
    hh * 3600 + mi * 60 + ss) * 1000

/-- `WorkingSessionService.getMonthlyReport`: sessions of the window from
`new Date(year, month - 1, 1)` to `new Date(year, month, 0, 23, 59, 59)`,
and the total of `(checkoutAt - checkinAt)` in hours over the closed ones. -/
def getMonthlyReport (db : SessionDB) (u o : String) (year month : Int) :
    ℚ × List WorkingSession :=
  let startDate := jsDateMs year (month - 1) 1 0 0 0
  let endDate := jsDateMs year month 0 23 59 59
  let sessions := getSessionsByDateRange db u o startDate endDate
  let totalWorkingHours := sessions.foldl
    (fun acc s =>
      match s.checkoutAt with
      | some e => acc + ((e - s.checkinAt : Int) : ℚ) / 3600000
      | none => acc) 0
  (totalWorkingHours, sessions)

/-- The open-session invariant: a (user, organization) pair has at most one
session with a null end timestamp. -/
def OpenInv (l : List WorkingSession) : Prop :=
  ∀ u o, l.countP (openFor u o) ≤ 1

/-- One serialized engine operation on the session store. -/
inductive EngineOp where
  | checkin (u o : String) (note : Option String) (now : Int)
  | checkout (u o : String) (note : Option String) (now : Int)

/-- Run one engine operation; a thrown business error leaves the store as it
was. -/
def applyOp (db : SessionDB) : EngineOp → SessionDB
  | .checkin u o note now => (checkin db u o note now).2
  | .checkout u o note now => (checkout db u o note now).2

/-- Run a serialized sequence of engine operations. -/
def applyOps (db : SessionDB) (ops : List EngineOp) : SessionDB :=
  ops.foldl applyOp db

/-- The Prisma `Role` enum. -/
inductive Role where
  | OWNER
  | ADMIN
  | MEMBER
deriving DecidableEq

/-- The Prisma `MembershipStatus` enum. -/
inductive MembershipStatus where
  | ACTIVE
  | INVITED
  | SUSPENDED
  | LEFT
deriving DecidableEq

/-- A row of the Prisma `User` model (fields the handlers read). -/
structure User where
  id : String
  name : String
  email : String
  slackUserId : Option String
  chatworkUserId : Option String
deriving DecidableEq

/-- A row of the Prisma `Organization` model. -/
structure Organization where
  id : String
  name : String
  slug : String
deriving DecidableEq

/-- A row of the Prisma `Membership` model (fields the handlers read); the
source's name collides with a Mathlib class, hence the `Row` suffix. -/
structure MembershipRow where
  userId : String
  organizationId : String
  role : Role
  status : MembershipStatus
deriving DecidableEq

/-- The database the adapters read: user, organization and membership tables
plus the session store. -/
structure DB where
  users : List User
  organizations : List Organization
  memberships : List MembershipRow
  store : SessionDB
deriving DecidableEq

/-- `UserService.findBySlackUserId`: unique lookup on the `slackUserId`
column. -/
def findBySlackUserId (db : DB) (sid : String) : Option User :=
  db.users.find? (fun u => u.slackUserId == some sid)

/-- `UserService.findByChatworkUserId`: unique lookup on the
`chatworkUserId` column. -/
def findByChatworkUserId (db : DB) (cid : String) : Option User :=
  db.users.find? (fun u => u.chatworkUserId == some cid)

/-- `OrganizationService.getUserOrganizations`: the organizations of the
user's ACTIVE memberships, in membership-table order; each membership's
included `organization` relation is looked up by id. -/
def getUserOrganizations (db : DB) (uid : String) : List Organization :=
  (db.memberships.filter
      (fun m => m.userId == uid && m.status == MembershipStatus.ACTIVE)).filterMap
    (fun m => db.organizations.find? (fun org => org.id == m.organizationId))

/-- The JavaScript line terminators, which `.` in a regular expression does
not match. -/
def isLineTerminator (c : Char) : Bool :=
  c = '\n' || c = '\r' || c = '\u2028' || c = '\u2029'

/-- The JavaScript whitespace class matched by the regex token for
whitespace and removed by `String.prototype.trim`. -/
def isJsWhitespace (c : Char) : Bool :=
  c = '\t' || c = '\n' || c = '\x0B' || c = '\x0C' || c = '\r' || c = ' ' ||
  c = '\u00A0' || c = '\u1680' || (0x2000 ≤ c.toNat && c.toNat ≤ 0x200A) ||
  c = '\u2028' || c = '\u2029' || c = '\u202F' || c = '\u205F' ||
  c = '\u3000' || c = '\uFEFF'

/-- JavaScript `String.prototype.trim` on the character list: drop leading
and trailing whitespace. -/
def jsTrimList (l : List Char) : List Char :=
  ((l.dropWhile isJsWhitespace).reverse.dropWhile isJsWhitespace).reverse

/-- JavaScript `String.prototype.trim`. -/
def jsTrim (s : String) : String :=
  String.mk (jsTrimList s.data)

/-- Removes an exact leading pattern: `chopCmd pat l` is the rest of `l`
after `pat` when `pat` leads `l`, and `none` otherwise. -/
def chopCmd : List Char → List Char → Option (List Char)
  | [], rest => some rest
  | _ :: _, [] => none
  | p :: ps, c :: cs => if p = c then chopCmd ps cs else none

/-- Capture group of the anchored pattern that matches a slash command
followed by optional whitespace and an optional same-line tail (the
Chatwork handler's regex for checkin, checkout and vacation).  The pattern
matches exactly when, after the command token, the input is whitespace
followed by a line-terminator-free tail reaching the end; the greedy
whitespace token makes the capture that tail. -/
def matchSlashCmd (cmd : String) (body : String) : Option (List Char) :=
  match chopCmd ('/' :: cmd.data) body.data with
  | none => none
  | some rest =>
      let t := rest.dropWhile isJsWhitespace
      if t.all (fun c => !isLineTerminator c) then some t else none

/-- The normalized command produced by `ChatworkWebhookHandler.parseCommand`. -/
structure ParsedCommand where
  name : String
  param : Option String
deriving DecidableEq

/-- `ChatworkWebhookHandler.parseCommand`: try the checkin, checkout, status
and vacation patterns in order; checkin, checkout and vacation take an
optional trimmed parameter, while the status pattern matches the bare
command only, with no capture group. -/
def parseCommand (body : String) : Option ParsedCommand :=
  match matchSlashCmd "checkin" body with
  | some cap => some ⟨"checkin", some (jsTrim (String.mk cap))⟩
  | none =>
  match matchSlashCmd "checkout" body with
  | some cap => some ⟨"checkout", some (jsTrim (String.mk cap))⟩
  | none =>
  if body = "/status" then some ⟨"status", none⟩
  else
  match matchSlashCmd "vacation" body with
  | some cap => some ⟨"vacation", some (jsTrim (String.mk cap))⟩
  | none => none

/-- Fixed reply when the platform user id is not linked to a user. -/
def registrationRequiredMsg : String :=
  "ユーザー登録が必要です。管理者に連絡してください。"

/-- Fixed reply when the user has no ACTIVE organization membership. -/
def noOrganizationMsg : String :=
  "所属組織が見つかりません。管理者に連絡してください。"

/-- Text the adapters put before a caught engine error's message. -/
def errorOccurredMsg : String :=
  "エラーが発生しました: "

/-- Fixed reply of the vacation stub. -/
def vacationStubMsg : String :=
  "休暇申請機能は近日公開予定です。"

/-- Fixed status reply when nobody is working. -/
def noActiveMembersMsg : String :=
  "現在稼働中のメンバーはいません。"

/-- The truthiness-guarded note echo of the checkin and checkout replies: a
quoted line when the note is a non-empty string, nothing otherwise. -/
def noteEcho (note : Option String) : String :=
  match note with
  | some n => if n = "" then "" else "\n> " ++ n
  | none => ""

/-- The truthiness-guarded note tail of a status roster line. -/
def noteDash (note : Option String) : String :=
  match note with
  | some n => if n = "" then "" else " - " ++ n
  | none => ""

/-- Two-digit rendering of an hour or minute field. -/
def pad2 (n : Int) : String :=
  (if n < 10 then "0" else "") ++ toString n

/-- The `toLocaleString('ja-JP', 2-digit hour and minute)` start-time stamp
of a roster line, rendered from the model's fixed-offset timeline. -/
def msToHM (ms : Int) : String :=
  let mtot := Int.fdiv ms 60000
  pad2 (Int.emod (Int.fdiv mtot 60) 24) ++ ":" ++ pad2 (Int.emod mtot 60)

/-- The `toFixed(2)` rendering of a duration in hours, modelled exactly on
rationals (two fraction digits, rounding half up on the magnitude). -/
def ratToFixed2 (q : ℚ) : String :=
  let render := fun (n : Int) =>
    toString (Int.fdiv n 100) ++ "." ++ pad2 (Int.emod n 100)
  if q < 0 then "-" ++ render ⌊(-q) * 100 + 1 / 2⌋
  else render ⌊q * 100 + 1 / 2⌋

/-- The working-hours tail of a checkout reply: the session's duration with
two decimals, or the fallback text when `hours` is null or zero (JavaScript
truthiness on `session.checkoutAt && duration`). -/
def hoursText (hours : Option ℚ) : String :=
  match hours with
  | none => "計算エラー"
  | some q => if q = 0 then "計算エラー" else ratToFixed2 q

/-- The duration, in hours, that the checkout handlers compute from the
returned session, null when its `checkoutAt` is null. -/
def sessionHours (s : WorkingSession) : Option ℚ :=
  s.checkoutAt.map (fun e => ((e - s.checkinAt : Int) : ℚ) / 3600000)

/-- The user name shown on a roster line, through the session's included
`user` relation (total on well-formed data, where the foreign key always
resolves). -/
def userNameOf (db : DB) (uid : String) : String :=
  ((db.users.find? (fun v => v.id == uid)).map (fun v => v.name)).getD ""

/-- The Chatwork status roster: header plus one bullet line per active
session with user name, start time and optional note. -/
def chatworkRosterMsg (db : DB) (sessions : List WorkingSession) : String :=
  sessions.foldl
    (fun m s =>
      m ++ "• " ++ userNameOf db s.userId ++ " (開始: " ++ msToHM s.checkinAt ++ ")" ++
        noteDash s.note ++ "\n")
    ("現在稼働中のメンバー (" ++ toString sessions.length ++ "人):\n")

/-- The Slack status roster; identical to the Chatwork one except that user
names are @-mentions. -/
def slackRosterMsg (db : DB) (sessions : List WorkingSession) : String :=
  sessions.foldl
    (fun m s =>
      m ++ "• @" ++ userNameOf db s.userId ++ " (開始: " ++ msToHM s.checkinAt ++ ")" ++
        noteDash s.note ++ "\n")
    ("現在稼働中のメンバー (" ++ toString sessions.length ++ "人):\n")

/-- `ChatworkWebhookHandler.handleCheckinCommand`: resolve the Chatwork
user, take the head of the user's organizations, run the engine checkin and
render the outcome; an engine error is caught and rendered after the error
text. -/
def handleCheckinCommand (db : DB) (chatworkUserId : String)
    (note : Option String) (now : Int) : String × SessionDB :=
  match findByChatworkUserId db chatworkUserId with
  | none => (registrationRequiredMsg, db.store)
  | some user =>
      match getUserOrganizations db user.id with
      | [] => (noOrganizationMsg, db.store)
      | organization :: _ =>
          match checkin db.store user.id organization.id note now with
          | (.ok _, store') =>
              (user.name ++ " さんがチェックインしました！" ++ noteEcho note, store')
          | (.error e, store') => (errorOccurredMsg ++ e, store')

/-- `ChatworkWebhookHandler.handleCheckoutCommand`: resolve, take the head
organization, run the engine checkout, and reply with the echoed note and
the session's duration; an engine error is caught and rendered. -/
def handleCheckoutCommand (db : DB) (chatworkUserId : String)
    (note : Option String) (now : Int) : String × SessionDB :=
  match findByChatworkUserId db chatworkUserId with
  | none => (registrationRequiredMsg, db.store)
  | some user =>
      match getUserOrganizations db user.id with
      | [] => (noOrganizationMsg, db.store)
      | organization :: _ =>
          match checkout db.store user.id organization.id note now with
          | (.ok session, store') =>
              (user.name ++ " さんがチェックアウトしました！" ++ noteEcho note ++
                "\n稼働時間: " ++ hoursText (sessionHours session) ++ " 時間", store')
          | (.error e, store') => (errorOccurredMsg ++ e, store')

/-- `ChatworkWebhookHandler.handleStatusCommand`: resolve, take the head
organization, and list that organization's active sessions. -/
def handleStatusCommand (db : DB) (chatworkUserId : String) : String :=
  match findByChatworkUserId db chatworkUserId with
  | none => registrationRequiredMsg
  | some user =>
      match getUserOrganizations db user.id with
      | [] => noOrganizationMsg
      | organization :: _ =>
          let activeSessions := getAllActiveSessions db.store organization.id
          if activeSessions.length = 0 then noActiveMembersMsg
          else chatworkRosterMsg db activeSessions

/-- `ChatworkWebhookHandler.handleVacationCommand`: the stub reply. -/
def handleVacationCommand (_db : DB) (_chatworkUserId : String)
    (_params : Option String) : String :=
  vacationStubMsg

/-- Outcome of `ChatworkWebhookHandler.handleWebhook`: HTTP status of the
webhook response, the chat message sent back to the room (if any), and the
resulting session store. -/
structure WebhookResult where
  status : Nat
  sent : Option String
  store : SessionDB
deriving DecidableEq

/-- `ChatworkWebhookHandler.handleWebhook`: reject a bad token with 401,
ignore non-message events and non-command messages, dispatch a parsed
command to its handler, send the non-empty reply, and answer 200. -/
def handleWebhook (db : DB) (webhookToken headerToken : String)
    (eventType : String) (accountId : String) (body : String) (now : Int) :
    WebhookResult :=
  if headerToken ≠ webhookToken then ⟨401, none, db.store⟩
  else if eventType ≠ "message_created" then ⟨200, none, db.store⟩
  else
    match parseCommand body with
    | none => ⟨200, none, db.store⟩
    | some cmd =>
        let out :=
          if cmd.name = "checkin" then handleCheckinCommand db accountId cmd.param now
          else if cmd.name = "checkout" then handleCheckoutCommand db accountId cmd.param now
          else if cmd.name = "status" then (handleStatusCommand db accountId, db.store)
          else if cmd.name = "vacation" then
            (handleVacationCommand db accountId cmd.param, db.store)
          else ("", db.store)
        ⟨200, if out.1 ≠ "" then some out.1 else none, out.2⟩

/-- The note a Slack handler passes to the engine: the trimmed slash-command
text, or nothing when that text is empty (JavaScript truthiness on
`command.text`). -/
def slackNote (text : String) : Option String :=
  if text = "" then none else some (jsTrim text)

/-- The Slack `/checkin` handler body (after `ack`): resolve the Slack user,
take the head organization, run the engine checkin, and respond; an engine
error is caught and rendered. -/
def slackCheckinCommand (db : DB) (slackUserId userName text : String)
    (now : Int) : String × SessionDB :=
  match findBySlackUserId db slackUserId with
  | none => (registrationRequiredMsg, db.store)
  | some user =>
      match getUserOrganizations db user.id with
      | [] => (noOrganizationMsg, db.store)
      | organization :: _ =>
          let note := slackNote text
          match checkin db.store user.id organization.id note now with
          | (.ok _, store') =>
              ("@" ++ userName ++ " さんがチェックインしました！" ++ noteEcho note, store')
          | (.error e, store') => (errorOccurredMsg ++ e, store')

/-- The Slack `/checkout` handler body (after `ack`): resolve, take the head
organization, run the engine checkout, and respond with the echoed note and
the duration; an engine error is caught and rendered. -/
def slackCheckoutCommand (db : DB) (slackUserId userName text : String)
    (now : Int) : String × SessionDB :=
  match findBySlackUserId db slackUserId with
  | none => (registrationRequiredMsg, db.store)
  | some user =>
      match getUserOrganizations db user.id with
      | [] => (noOrganizationMsg, db.store)
      | organization :: _ =>
          let note := slackNote text
          match checkout db.store user.id organization.id note now with
          | (.ok session, store') =>
              ("@" ++ userName ++ " さんがチェックアウトしました！" ++ noteEcho note ++
                "\n稼働時間: " ++ hoursText (sessionHours session) ++ " 時間", store')
          | (.error e, store') => (errorOccurredMsg ++ e, store')

/-- The Slack `/status` handler body (after `ack`): resolve, take the head
organization, and list that organization's active sessions. -/
def slackStatusCommand (db : DB) (slackUserId : String) : String :=
  match findBySlackUserId db slackUserId with
  | none => registrationRequiredMsg
  | some user =>
      match getUserOrganizations db user.id with
      | [] => noOrganizationMsg
      | organization :: _ =>
          let activeSessions := getAllActiveSessions db.store organization.id
          if activeSessions.length = 0 then noActiveMembersMsg
          else slackRosterMsg db activeSessions

lemma openFor_closeSession (u o : String) (a : WorkingSession) (now : Int)
    (note : Option String) : openFor u o (closeSession a now note) = false := by
  simp [openFor, closeSession]

lemma checkin_of_none (db : SessionDB) (u o : String) (note : Option String)
    (now : Int) (h : getActiveSession db u o = none) :
    checkin db u o note now =
      (.ok ⟨db.nextId, u, o, now, none, note⟩,
        ⟨db.sessions ++ [⟨db.nextId, u, o, now, none, note⟩], db.nextId + 1⟩) := by
  simp [checkin, h]

lemma checkin_of_some (db : SessionDB) (u o : String) (note : Option String)
    (now : Int) (a : WorkingSession) (h : getActiveSession db u o = some a) :
    checkin db u o note now = (.error alreadyCheckedInMsg, db) := by
  simp [checkin, h]

lemma checkout_of_none (db : SessionDB) (u o : String) (note : Option String)
    (now : Int) (h : getActiveSession db u o = none) :
    checkout db u o note now = (.error notCheckedInMsg, db) := by
  simp [checkout, h]

lemma checkout_of_some (db : SessionDB) (u o : String) (note : Option String)
    (now : Int) (a : WorkingSession) (h : getActiveSession db u o = some a) :
    checkout db u o note now =
      (.ok (closeSession a now note),
        ⟨db.sessions.map (fun t => if t.id == a.id then closeSession a now note else t),
          db.nextId⟩) := by
  simp [checkout, h]

lemma find?_closeAll_eq_none (u o : String) (s' : WorkingSession)
    (hs' : openFor u o s' = false) :
    ∀ (l : List WorkingSession) (a : WorkingSession),
      l.find? (openFor u o) = some a → l.countP (openFor u o) ≤ 1 →
      (l.map (fun t => if t.id == a.id then s' else t)).find? (openFor u o) = none := by
  intro l
  induction l with
  | nil => intro a h _; simp at h
  | cons c l ih =>
      intro a hfind hcount
      by_cases hc : openFor u o c
      · rw [List.find?_cons_of_pos _ hc] at hfind
        have hac : c = a := by injection hfind
        have hzero : l.countP (openFor u o) = 0 := by
          rw [List.countP_cons_of_pos _ _ hc] at hcount
          omega
        have hall := List.countP_eq_zero.mp hzero
        refine List.find?_eq_none.mpr ?_
        intro x hx
        rw [List.map_cons, List.mem_cons] at hx
        rcases hx with hx1 | hx2
        · subst hx1
          simp [hac, hs']
        · rcases List.mem_map.mp hx2 with ⟨t, ht, rfl⟩
          by_cases hid : t.id == a.id
          · simp [hid, hs']
          · simp only [hid, if_neg, Bool.false_eq_true, not_false_eq_true, ite_false]
            exact fun hpt => hall t ht hpt
      · rw [List.find?_cons_of_neg _ hc] at hfind
        rw [List.countP_cons_of_neg _ _ hc] at hcount
        rw [List.map_cons]
        have hfc : ¬ openFor u o (if c.id == a.id then s' else c) := by
          by_cases hid : c.id == a.id
          · simp [hid, hs']
          · simp only [hid, Bool.false_eq_true, not_false_eq_true, ite_false]
            exact hc
        rw [List.find?_cons_of_neg _ hfc]
        exact ih a hfind hcount

lemma openInv_checkin (db : SessionDB) (u o : String) (note : Option String)
    (now : Int) (h : OpenInv db.sessions) :
    OpenInv ((checkin db u o note now).2).sessions := by
  cases hfind : getActiveSession db u o with
  | some a => simpa [checkin_of_some db u o note now a hfind] using h
  | none =>
      have hall : ∀ x ∈ db.sessions, ¬ openFor u o x :=
        List.find?_eq_none.mp (by simpa [getActiveSession] using hfind)
      intro u' o'
      rw [checkin_of_none db u o note now hfind]
      simp only [List.countP_append]
      by_cases hb : openFor u' o' (⟨db.nextId, u, o, now, none, note⟩ : WorkingSession)
      · have hu : u = u' ∧ o = o' := by
          simpa [openFor] using hb
        obtain ⟨rfl, rfl⟩ := hu
        have hzero : db.sessions.countP (openFor u o) = 0 :=
          List.countP_eq_zero.mpr hall
        simp [hzero, List.countP_singleton, hb]
      · simp only [List.countP_singleton, hb, if_false, Nat.add_zero]
        exact h u' o'

lemma openInv_checkout (db : SessionDB) (u o : String) (note : Option String)
    (now : Int) (h : OpenInv db.sessions) :
    OpenInv ((checkout db u o note now).2).sessions := by
  cases hfind : getActiveSession db u o with
  | none => simpa [checkout_of_none db u o note now hfind] using h
  | some a =>
      intro u' o'
      rw [checkout_of_some db u o note now a hfind]
      simp only [List.countP_map]
      refine le_trans (List.countP_mono_left ?_) (h u' o')
      intro x hx hpx
      by_cases hid : x.id == a.id
      · exfalso
        revert hpx
        simp [Function.comp, hid, openFor_closeSession]
      · simpa [Function.comp, hid] using hpx

/-- C2: `checkin` fails with AlreadyCheckedIn exactly when an open session
exists for the (user, organization) pair; otherwise it appends exactly one
new session with a null end, `checkinAt = now` and the given note (absent
when none is given), and `getActiveSession` afterwards returns that open
session. -/
theorem checkin_spec (db : SessionDB) (u o : String) (note : Option String)
    (now : Int) :
    match getActiveSession db u o with
    | some _ => checkin db u o note now = (.error alreadyCheckedInMsg, db)
    | none =>
        checkin db u o note now =
          (.ok ⟨db.nextId, u, o, now, none, note⟩,
            ⟨db.sessions ++ [⟨db.nextId, u, o, now, none, note⟩], db.nextId + 1⟩) ∧
        getActiveSession
            ⟨db.sessions ++ [⟨db.nextId, u, o, now, none, note⟩], db.nextId + 1⟩ u o =
          some ⟨db.nextId, u, o, now, none, note⟩ ∧
        (⟨db.nextId, u, o, now, none, note⟩ : WorkingSession).checkoutAt = none := by
  cases hfind : getActiveSession db u o with
  | some a => exact checkin_of_some db u o note now a hfind
  | none =>
      refine ⟨checkin_of_none db u o note now hfind, ?_, rfl⟩
      have hnone : db.sessions.find? (openFor u o) = none := by
        simpa [getActiveSession] using hfind
      simp [getActiveSession, List.find?_append, hnone, openFor]

/-- C3: under the open-session invariant and a clock that never precedes a
stored start, `checkout` fails with NotCheckedIn exactly when no open
session exists; otherwise it closes the open session with `end = now ≥
start`, replaces the note only when a non-empty note was supplied, retains
the prior note otherwise, returns the closed session, and afterwards
`getActiveSession` returns none. -/
theorem checkout_spec (db : SessionDB) (u o : String) (note : Option String)
    (now : Int) (hinv : OpenInv db.sessions)
    (hclock : ∀ s ∈ db.sessions, s.checkinAt ≤ now) :
    match getActiveSession db u o with
    | none => checkout db u o note now = (.error notCheckedInMsg, db)
    | some a =>
        checkout db u o note now =
          (.ok (closeSession a now note),
            ⟨db.sessions.map
                (fun t => if t.id == a.id then closeSession a now note else t),
              db.nextId⟩) ∧
        (closeSession a now note).checkoutAt = some now ∧
        (closeSession a now note).checkinAt = a.checkinAt ∧
        a.checkinAt ≤ now ∧
        (∀ n, note = some n → n ≠ "" → (closeSession a now note).note = some n) ∧
        ((note = none ∨ note = some "") → (closeSession a now note).note = a.note) ∧
        getActiveSession
            ⟨db.sessions.map
                (fun t => if t.id == a.id then closeSession a now note else t),
              db.nextId⟩ u o = none := by
  cases hfind : getActiveSession db u o with
  | none => exact checkout_of_none db u o note now hfind
  | some a =>
      have hfind' : db.sessions.find? (openFor u o) = some a := by
        simpa [getActiveSession] using hfind
      have hmem : a ∈ db.sessions := List.mem_of_find?_eq_some hfind'
      refine ⟨checkout_of_some db u o note now a hfind, rfl, rfl, hclock a hmem,
        ?_, ?_, ?_⟩
      · intro n hn hne
        simp [closeSession, jsNoteOr, hn, hne]
      · rintro (h | h) <;> simp [closeSession, jsNoteOr, h]
      · exact find?_closeAll_eq_none u o (closeSession a now note)
          (openFor_closeSession u o a now note) db.sessions a hfind' (hinv u o)

/-- Concrete open session used by witnesses. -/
def openSession1 : WorkingSession :=
  ⟨0, "u", "o", 540, none, some "office"⟩

/-- Concrete store holding one open session, used by witnesses. -/
def dbOpen1 : SessionDB :=
  ⟨[openSession1], 1⟩

/-- Witness for `checkout_spec` at a concrete store with one open session. -/
theorem checkout_spec_witness :
    OpenInv dbOpen1.sessions ∧ (∀ s ∈ dbOpen1.sessions, s.checkinAt ≤ 1050) ∧
    checkout dbOpen1 "u" "o" none 1050 =
      (.ok (closeSession openSession1 1050 none),
        ⟨dbOpen1.sessions.map
            (fun t => if t.id == openSession1.id then closeSession openSession1 1050 none else t),
          dbOpen1.nextId⟩) ∧
    getActiveSession
        ⟨dbOpen1.sessions.map
            (fun t => if t.id == openSession1.id then closeSession openSession1 1050 none else t),
          dbOpen1.nextId⟩ "u" "o" = none := by
  have hinv : OpenInv dbOpen1.sessions :=
    fun u o => le_trans (List.countP_le_length _) (by simp [dbOpen1])
  have hclock : ∀ s ∈ dbOpen1.sessions, s.checkinAt ≤ 1050 := by decide
  have h := checkout_spec dbOpen1 "u" "o" none 1050 hinv hclock
  exact ⟨hinv, hclock, h.1, h.2.2.2.2.2.2⟩

/-- C9: a checkout whose note is the empty string closes the session but
keeps the prior note: the empty string counts as no note supplied. -/
theorem checkout_empty_note_retains (db : SessionDB) (u o : String) (now : Int)
    (a : WorkingSession) (h : getActiveSession db u o = some a) :
    (checkout db u o (some "") now).1 = .ok (closeSession a now (some "")) ∧
    (closeSession a now (some "")).note = a.note ∧
    (closeSession a now (some "")).checkoutAt = some now := by
  refine ⟨?_, ?_, rfl⟩
  · rw [checkout_of_some db u o (some "") now a h]
  · simp [closeSession, jsNoteOr]

/-- Witness for `checkout_empty_note_retains` at a concrete store. -/
theorem checkout_empty_note_retains_witness :
    getActiveSession dbOpen1 "u" "o" = some openSession1 ∧
    ((checkout dbOpen1 "u" "o" (some "") 1050).1 =
        .ok (closeSession openSession1 1050 (some "")) ∧
      (closeSession openSession1 1050 (some "")).note = openSession1.note ∧
      (closeSession openSession1 1050 (some "")).checkoutAt = some 1050) := by
  refine ⟨by decide, checkout_empty_note_retains dbOpen1 "u" "o" 1050 openSession1 (by decide)⟩

/-- C10: a failing checkin (AlreadyCheckedIn) or failing checkout
(NotCheckedIn) leaves the session store exactly as it was. -/
theorem failed_ops_leave_store_unchanged (db : SessionDB) (u o : String)
    (note : Option String) (now : Int) :
    (∀ e, (checkin db u o note now).1 = .error e → (checkin db u o note now).2 = db) ∧
    (∀ e, (checkout db u o note now).1 = .error e → (checkout db u o note now).2 = db) := by
  constructor
  · intro e h
    cases hfind : getActiveSession db u o with
    | some a => rw [checkin_of_some db u o note now a hfind]
    | none => rw [checkin_of_none db u o note now hfind] at h; exact absurd h (by simp)
  · intro e h
    cases hfind : getActiveSession db u o with
    | none => rw [checkout_of_none db u o note now hfind]
    | some a => rw [checkout_of_some db u o note now a hfind] at h; exact absurd h (by simp)

/-- Witness for `failed_ops_leave_store_unchanged`: a second checkin and a
checkout on an empty store both fail and leave the store untouched. -/
theorem failed_ops_leave_store_unchanged_witness :
    ((checkin dbOpen1 "u" "o" none 900).1 = .error alreadyCheckedInMsg ∧
      (checkin dbOpen1 "u" "o" none 900).2 = dbOpen1) ∧
    ((checkout ⟨[], 0⟩ "u" "o" none 900).1 = .error notCheckedInMsg ∧
      (checkout ⟨[], 0⟩ "u" "o" none 900).2 = ⟨[], 0⟩) := by
  refine ⟨⟨rfl, ?_⟩, ⟨rfl, ?_⟩⟩
  · exact (failed_ops_leave_store_unchanged dbOpen1 "u" "o" none 900).1
      alreadyCheckedInMsg rfl
  · exact (failed_ops_leave_store_unchanged ⟨[], 0⟩ "u" "o" none 900).2
      notCheckedInMsg rfl

/-- C1: the open-session invariant is preserved by every serialized sequence
of engine checkins and checkouts: a checkin refuses to open a second session
for a pair, and a checkout only closes sessions. -/
theorem open_session_invariant (db : SessionDB) (ops : List EngineOp)
    (h : OpenInv db.sessions) : OpenInv ((applyOps db ops).sessions) := by
  induction ops generalizing db with
  | nil => simpa [applyOps] using h
  | cons op ops ih =>
      have h1 : OpenInv ((applyOp db op).sessions) := by
        cases op with
        | checkin u o note now => exact openInv_checkin db u o note now h
        | checkout u o note now => exact openInv_checkout db u o note now h
      simpa [applyOps, List.foldl_cons] using ih (applyOp db op) h1

/-- Witness for `open_session_invariant`: a double checkin followed by a
double checkout, starting from the empty store. -/
theorem open_session_invariant_witness :
    OpenInv (SessionDB.mk [] 0).sessions ∧
    OpenInv ((applyOps ⟨[], 0⟩
        [.checkin "u" "o" (some "office") 900, .checkin "u" "o" none 905,
          .checkout "u" "o" none 1030, .checkout "u" "o" none 1031]).sessions) := by
  have h0 : OpenInv (SessionDB.mk [] 0).sessions := by
    intro u o; simp
  exact ⟨h0, open_session_invariant ⟨[], 0⟩ _ h0⟩

/-- C8: `getSessionsByDateRange` returns exactly the sessions of the pair
whose start lies in the inclusive interval, ordered by start ascending. -/
theorem sessionsByDateRange_spec (db : SessionDB) (u o : String)
    (startDate endDate : Int) :
    List.Sorted sessionLe (getSessionsByDateRange db u o startDate endDate) ∧
    (getSessionsByDateRange db u o startDate endDate).Perm
      (db.sessions.filter (inDateRange u o startDate endDate)) ∧
    ∀ s : WorkingSession,
      s ∈ getSessionsByDateRange db u o startDate endDate ↔
        s ∈ db.sessions ∧ s.userId = u ∧ s.organizationId = o ∧
          startDate ≤ s.checkinAt ∧ s.checkinAt ≤ endDate := by
  refine ⟨List.sorted_insertionSort sessionLe _, List.perm_insertionSort sessionLe _, ?_⟩
  intro s
  rw [getSessionsByDateRange,
    (List.perm_insertionSort sessionLe _).mem_iff, List.mem_filter]
  simp [inDateRange, and_assoc]

lemma foldl_hours (l : List WorkingSession) (init : ℚ) :
    l.foldl
      (fun acc s =>
        match s.checkoutAt with
        | some e => acc + ((e - s.checkinAt : Int) : ℚ) / 3600000
        | none => acc) init =
    init + ((l.filter (fun s => s.checkoutAt.isSome)).map
      (fun s => ((s.checkoutAt.getD 0 - s.checkinAt : Int) : ℚ) / 3600000)).sum := by
  induction l generalizing init with
  | nil => simp
  | cons c l ih =>
      cases hc : c.checkoutAt with
      | none =>
          simp only [List.foldl_cons, hc, List.filter_cons, Option.isSome_none,
            Bool.false_eq_true, if_false]
          exact ih init
      | some e =>
          simp only [List.foldl_cons, hc, ih, List.filter_cons, Option.isSome_some,
            if_true, List.map_cons, List.sum_cons, Option.getD_some]
          ring

lemma daysFromCivil_day_zero (y m : Int) :
    daysFromCivil y m 0 = daysFromCivil y m 1 - 1 := by
  unfold daysFromCivil
  by_cases h : m ≤ 2 <;> simp only [h, if_true, if_false] <;> ring

lemma jsDateMs_end_of_month (year month : Int) :
    jsDateMs year month 0 23 59 59 = jsDateMs year month 1 0 0 0 - 1000 := by
  unfold jsDateMs
  rw [daysFromCivil_day_zero]
  ring

/-- C4 (amended boundary): `getMonthlyReport` lists exactly the sessions of
the pair starting between the first instant of the month and 23:59:59.000
of its last day — one second, hence 999 ms, before the first instant of the
next month — and totals `(end - start)` in hours over the listed sessions
whose end is set; listed open sessions contribute nothing to the total. -/
theorem monthlyReport_spec (db : SessionDB) (u o : String) (year month : Int) :
    (getMonthlyReport db u o year month).2 =
      getSessionsByDateRange db u o (jsDateMs year (month - 1) 1 0 0 0)
        (jsDateMs year month 0 23 59 59) ∧
    (getMonthlyReport db u o year month).1 =
      (((getMonthlyReport db u o year month).2.filter
          (fun s => s.checkoutAt.isSome)).map
        (fun s => ((s.checkoutAt.getD 0 - s.checkinAt : Int) : ℚ) / 3600000)).sum ∧
    (∀ s : WorkingSession,
      s ∈ (getMonthlyReport db u o year month).2 ↔
        s ∈ db.sessions ∧ s.userId = u ∧ s.organizationId = o ∧
          jsDateMs year (month - 1) 1 0 0 0 ≤ s.checkinAt ∧
          s.checkinAt ≤ jsDateMs year month 0 23 59 59) ∧
    jsDateMs year month 0 23 59 59 = jsDateMs year month 1 0 0 0 - 1000 := by
  have h2 : (getMonthlyReport db u o year month).2 =
      getSessionsByDateRange db u o (jsDateMs year (month - 1) 1 0 0 0)
        (jsDateMs year month 0 23 59 59) := rfl
  have h1 : (getMonthlyReport db u o year month).1 =
      (getSessionsByDateRange db u o (jsDateMs year (month - 1) 1 0 0 0)
          (jsDateMs year month 0 23 59 59)).foldl
        (fun acc s =>
          match s.checkoutAt with
          | some e => acc + ((e - s.checkinAt : Int) : ℚ) / 3600000
          | none => acc) 0 := rfl
  refine ⟨h2, ?_, ?_, jsDateMs_end_of_month year month⟩
  · rw [h1, h2, foldl_hours, zero_add]
  · intro s
    rw [h2, getSessionsByDateRange,
      (List.perm_insertionSort sessionLe _).mem_iff, List.mem_filter]
    simp [inDateRange, and_assoc]

/-- A session of the final 500 ms of January 2023, closed 100 ms later. -/
def lateJanSession : WorkingSession :=
  ⟨0, "u", "o", jsDateMs 2023 0 31 23 59 59 + 500,
    some (jsDateMs 2023 0 31 23 59 59 + 600), none⟩

/-- Counterexample to C4 as stated: this closed session starts inside
calendar January 2023 (between the month's first instant and the first
instant of February), yet the January report neither lists it nor counts
its duration — the report window stops at 23:59:59.000 of the last day. -/
theorem monthlyReport_boundary_counterexample :
    jsDateMs 2023 0 1 0 0 0 ≤ lateJanSession.checkinAt ∧
    lateJanSession.checkinAt < jsDateMs 2023 1 1 0 0 0 ∧
    lateJanSession.checkoutAt.isSome = true ∧
    lateJanSession.userId = "u" ∧ lateJanSession.organizationId = "o" ∧
    getMonthlyReport ⟨[lateJanSession], 1⟩ "u" "o" 2023 1 = (0, []) := by
  refine ⟨by decide, by decide, rfl, rfl, rfl, ?_⟩
  decide

lemma dropWhile_dropWhile_self (p : Char → Bool) (l : List Char) :
    (l.dropWhile p).dropWhile p = l.dropWhile p := by
  cases h : l.dropWhile p with
  | nil => simp
  | cons c cs =>
      have hc : p c = false := by
        have hh := List.head?_dropWhile_not p l
        rw [h] at hh
        simpa using hh
      simp [List.dropWhile_cons, hc]

lemma jsTrimList_reverse_dropWhile (l : List Char) :
    (jsTrimList l).reverse.dropWhile isJsWhitespace = (jsTrimList l).reverse := by
  unfold jsTrimList
  rw [List.reverse_reverse]
  exact dropWhile_dropWhile_self _ _

lemma jsTrimList_dropWhile (l : List Char) :
    (jsTrimList l).dropWhile isJsWhitespace = jsTrimList l := by
  unfold jsTrimList
  have hpre : ((l.dropWhile isJsWhitespace).reverse.dropWhile isJsWhitespace).reverse <+:
      l.dropWhile isJsWhitespace := by
    have hsuf : (l.dropWhile isJsWhitespace).reverse.dropWhile isJsWhitespace <:+
        (l.dropWhile isJsWhitespace).reverse := List.dropWhile_suffix _
    have hp := List.reverse_prefix.mpr hsuf
    rwa [List.reverse_reverse] at hp
  cases hbr : ((l.dropWhile isJsWhitespace).reverse.dropWhile isJsWhitespace).reverse with
  | nil => simp [hbr]
  | cons c cs =>
      rw [hbr] at hpre
      have hceq : (l.dropWhile isJsWhitespace).head? = some c := by
        rcases hpre with ⟨t, ht⟩
        rw [← ht]
        rfl
      have hc : isJsWhitespace c = false := by
        have hh := List.head?_dropWhile_not isJsWhitespace l
        rw [hceq] at hh
        simpa using hh
      simp [List.dropWhile_cons, hc]

lemma chopCmd_eq_append : ∀ (p l r : List Char), chopCmd p l = some r → l = p ++ r := by
  intro p
  induction p with
  | nil =>
      intro l r h
      simp only [chopCmd] at h
      simp [← Option.some.inj h]
  | cons c cs ih =>
      intro l r h
      cases l with
      | nil => simp [chopCmd] at h
      | cons d ds =>
          simp only [chopCmd] at h
          by_cases hcd : c = d
          · rw [if_pos hcd] at h
            subst hcd
            simpa using ih ds r h
          · rw [if_neg hcd] at h
            cases h

lemma matchSlashCmd_some (cmd body : String) (cap : List Char)
    (h : matchSlashCmd cmd body = some cap) :
    ∃ rest, body.data = ('/' :: cmd.data) ++ rest ∧
      cap = rest.dropWhile isJsWhitespace := by
  unfold matchSlashCmd at h
  cases hr : chopCmd ('/' :: cmd.data) body.data with
  | none => rw [hr] at h; cases h
  | some rest =>
      rw [hr] at h
      refine ⟨rest, chopCmd_eq_append _ _ _ hr, ?_⟩
      by_cases ht : (rest.dropWhile isJsWhitespace).all (fun c => !isLineTerminator c)
      · simp only [ht, if_true] at h
        exact (Option.some.inj h).symm
      · simp only [ht, if_false] at h
        cases h

/-- C5 (amended): `parseCommand` recognizes exactly the command names
checkin, checkout, status and vacation at the start of the message body;
checkin, checkout and vacation carry an optional trimmed free-text
parameter, while status is recognized only as the bare `/status`, with no
parameter; any other input yields no command.  The spec's three examples
hold. -/
theorem parseCommand_spec (body : String) (r : ParsedCommand)
    (h : parseCommand body = some r) :
    (r.name = "checkin" ∨ r.name = "checkout" ∨ r.name = "status" ∨
      r.name = "vacation") ∧
    (∃ rest, body.data = '/' :: (r.name.data ++ rest)) ∧
    (∀ p, r.param = some p →
      p.data.dropWhile isJsWhitespace = p.data ∧
      p.data.reverse.dropWhile isJsWhitespace = p.data.reverse) ∧
    (r.name = "status" → body = "/status" ∧ r.param = none) ∧
    parseCommand "/checkin working from home" =
      some ⟨"checkin", some "working from home"⟩ ∧
    parseCommand "/status" = some ⟨"status", none⟩ ∧
    parseCommand "hello" = none := by
  have hex1 : parseCommand "/checkin working from home" =
      some ⟨"checkin", some "working from home"⟩ := by decide
  have hex2 : parseCommand "/status" = some ⟨"status", none⟩ := by decide
  have hex3 : parseCommand "hello" = none := by decide
  unfold parseCommand at h
  cases h1 : matchSlashCmd "checkin" body with
  | some cap =>
      rw [h1] at h
      obtain rfl : (⟨"checkin", some (jsTrim (String.mk cap))⟩ : ParsedCommand) = r :=
        Option.some.inj h
      obtain ⟨rest, hbody, hcap⟩ := matchSlashCmd_some _ _ _ h1
      refine ⟨Or.inl rfl, ⟨rest, hbody⟩, ?_, ?_, hex1, hex2, hex3⟩
      · intro p hp
        obtain rfl : jsTrim (String.mk cap) = p := Option.some.inj hp
        exact ⟨jsTrimList_dropWhile cap, jsTrimList_reverse_dropWhile cap⟩
      · intro hn
        have hn' : ("checkin" : String) = "status" := hn
        exact absurd hn' (by decide)
  | none =>
      rw [h1] at h
      cases h2 : matchSlashCmd "checkout" body with
      | some cap =>
          rw [h2] at h
          obtain rfl : (⟨"checkout", some (jsTrim (String.mk cap))⟩ : ParsedCommand) = r :=
            Option.some.inj h
          obtain ⟨rest, hbody, hcap⟩ := matchSlashCmd_some _ _ _ h2
          refine ⟨Or.inr (Or.inl rfl), ⟨rest, hbody⟩, ?_, ?_, hex1, hex2, hex3⟩
          · intro p hp
            obtain rfl : jsTrim (String.mk cap) = p := Option.some.inj hp
            exact ⟨jsTrimList_dropWhile cap, jsTrimList_reverse_dropWhile cap⟩
          · intro hn
            have hn' : ("checkout" : String) = "status" := hn
            exact absurd hn' (by decide)
      | none =>
          rw [h2] at h
          by_cases hs : body = "/status"
          · rw [if_pos hs] at h
            obtain rfl : (⟨"status", none⟩ : ParsedCommand) = r := Option.some.inj h
            subst hs
            refine ⟨Or.inr (Or.inr (Or.inl rfl)), ⟨[], by decide⟩, ?_, ?_,
              hex1, hex2, hex3⟩
            · intro p hp
              cases hp
            · intro _
              exact ⟨rfl, rfl⟩
          · rw [if_neg hs] at h
            cases h3 : matchSlashCmd "vacation" body with
            | some cap =>
                rw [h3] at h
                obtain rfl :
                    (⟨"vacation", some (jsTrim (String.mk cap))⟩ : ParsedCommand) = r :=
                  Option.some.inj h
                obtain ⟨rest, hbody, hcap⟩ := matchSlashCmd_some _ _ _ h3
                refine ⟨Or.inr (Or.inr (Or.inr rfl)), ⟨rest, hbody⟩, ?_, ?_,
                  hex1, hex2, hex3⟩
                · intro p hp
                  obtain rfl : jsTrim (String.mk cap) = p := Option.some.inj hp
                  exact ⟨jsTrimList_dropWhile cap, jsTrimList_reverse_dropWhile cap⟩
                · intro hn
                  have hn' : ("vacation" : String) = "status" := hn
                  exact absurd hn' (by decide)
            | none =>
                rw [h3] at h
                cases h

/-- Counterexample to C5 as stated: a status command followed by free text
is not recognized at all, although the same tail after checkin is taken as
its trimmed parameter. -/
theorem parseCommand_status_param_counterexample :
    parseCommand "/status now" = none ∧
    parseCommand "/checkin now" = some ⟨"checkin", some "now"⟩ := by
  exact ⟨by decide, by decide⟩

/-- Witness for `parseCommand_spec` at the spec's own checkin example. -/
theorem parseCommand_spec_witness :
    parseCommand "/checkin working from home" =
      some ⟨"checkin", some "working from home"⟩ ∧
    (∃ rest, ("/checkin working from home" : String).data =
      '/' :: (("checkin" : String).data ++ rest)) := by
  have h : parseCommand "/checkin working from home" =
      some ⟨"checkin", some "working from home"⟩ := by decide
  exact ⟨h, (parseCommand_spec "/checkin working from home"
    ⟨"checkin", some "working from home"⟩ h).2.1⟩

lemma checkin_error_pair (db : SessionDB) (u o : String) (note : Option String)
    (now : Int) (e : String) (h : (checkin db u o note now).1 = .error e) :
    checkin db u o note now = (.error e, db) := by
  cases hfind : getActiveSession db u o with
  | some a =>
      rw [checkin_of_some db u o note now a hfind] at h ⊢
      have he : alreadyCheckedInMsg = e := by
        simpa using h
      rw [he]
  | none =>
      rw [checkin_of_none db u o note now hfind] at h
      exact absurd h (by simp)

lemma checkout_error_pair (db : SessionDB) (u o : String) (note : Option String)
    (now : Int) (e : String) (h : (checkout db u o note now).1 = .error e) :
    checkout db u o note now = (.error e, db) := by
  cases hfind : getActiveSession db u o with
  | none =>
      rw [checkout_of_none db u o note now hfind] at h ⊢
      have he : notCheckedInMsg = e := by
        simpa using h
      rw [he]
  | some a =>
      rw [checkout_of_some db u o note now a hfind] at h
      exact absurd h (by simp)

/-- C6: with a resolved user who belongs to two or more organizations, the
checkin, checkout and status commands of both adapters always target the
head of `getUserOrganizations`: checkin appends its session under the first
organization's id, checkout closes the open session of the first
organization, and status lists the first organization's active sessions. -/
theorem first_organization_targeted
    (db : DB) (cwId slackId userName text : String) (note : Option String)
    (now : Int) (u v : User) (uo uo2 : Organization) (urest : List Organization)
    (vo vo2 : Organization) (vrest : List Organization)
    (hu : findByChatworkUserId db cwId = some u)
    (huorgs : getUserOrganizations db u.id = uo :: uo2 :: urest)
    (hv : findBySlackUserId db slackId = some v)
    (hvorgs : getUserOrganizations db v.id = vo :: vo2 :: vrest) :
    (getActiveSession db.store u.id uo.id = none →
      (handleCheckinCommand db cwId note now).2.sessions =
        db.store.sessions ++ [⟨db.store.nextId, u.id, uo.id, now, none, note⟩]) ∧
    (∀ a, getActiveSession db.store u.id uo.id = some a →
      (handleCheckoutCommand db cwId note now).2.sessions =
        db.store.sessions.map
          (fun t => if t.id == a.id then closeSession a now note else t)) ∧
    (handleStatusCommand db cwId =
      if (getAllActiveSessions db.store uo.id).length = 0 then noActiveMembersMsg
      else chatworkRosterMsg db (getAllActiveSessions db.store uo.id)) ∧
    (getActiveSession db.store v.id vo.id = none →
      (slackCheckinCommand db slackId userName text now).2.sessions =
        db.store.sessions ++
          [⟨db.store.nextId, v.id, vo.id, now, none, slackNote text⟩]) ∧
    (∀ a, getActiveSession db.store v.id vo.id = some a →
      (slackCheckoutCommand db slackId userName text now).2.sessions =
        db.store.sessions.map
          (fun t => if t.id == a.id then closeSession a now (slackNote text) else t)) ∧
    (slackStatusCommand db slackId =
      if (getAllActiveSessions db.store vo.id).length = 0 then noActiveMembersMsg
      else slackRosterMsg db (getAllActiveSessions db.store vo.id)) := by
  refine ⟨?_, ?_, ?_, ?_, ?_, ?_⟩
  · intro hact
    simp only [handleCheckinCommand, hu, huorgs,
      checkin_of_none db.store u.id uo.id note now hact]
  · intro a hact
    simp only [handleCheckoutCommand, hu, huorgs,
      checkout_of_some db.store u.id uo.id note now a hact]
  · simp only [handleStatusCommand, hu, huorgs]
  · intro hact
    simp only [slackCheckinCommand, hv, hvorgs,
      checkin_of_none db.store v.id vo.id (slackNote text) now hact]
  · intro a hact
    simp only [slackCheckoutCommand, hv, hvorgs,
      checkout_of_some db.store v.id vo.id (slackNote text) now a hact]
  · simp only [slackStatusCommand, hv, hvorgs]

/-- C7: a Chatwork webhook with a valid token always answers HTTP 200, and
in both adapters an engine AlreadyCheckedIn or NotCheckedIn error is caught
and rendered as a user-facing error reply while the store is left
untouched; the business failure never becomes a transport failure. -/
theorem adapter_error_containment
    (db : DB) (tok etype acc body : String) (now : Int)
    (cwId slackId userName text : String) (note : Option String) :
    (handleWebhook db tok tok etype acc body now).status = 200 ∧
    (∀ u org rest e, findByChatworkUserId db cwId = some u →
      getUserOrganizations db u.id = org :: rest →
      (checkin db.store u.id org.id note now).1 = .error e →
      handleCheckinCommand db cwId note now = (errorOccurredMsg ++ e, db.store)) ∧
    (∀ u org rest e, findByChatworkUserId db cwId = some u →
      getUserOrganizations db u.id = org :: rest →
      (checkout db.store u.id org.id note now).1 = .error e →
      handleCheckoutCommand db cwId note now = (errorOccurredMsg ++ e, db.store)) ∧
    (∀ v org rest e, findBySlackUserId db slackId = some v →
      getUserOrganizations db v.id = org :: rest →
      (checkin db.store v.id org.id (slackNote text) now).1 = .error e →
      slackCheckinCommand db slackId userName text now =
        (errorOccurredMsg ++ e, db.store)) ∧
    (∀ v org rest e, findBySlackUserId db slackId = some v →
      getUserOrganizations db v.id = org :: rest →
      (checkout db.store v.id org.id (slackNote text) now).1 = .error e →
      slackCheckoutCommand db slackId userName text now =
        (errorOccurredMsg ++ e, db.store)) := by
  refine ⟨?_, ?_, ?_, ?_, ?_⟩
  · unfold handleWebhook
    rw [if_neg (by simp)]
    by_cases he : etype ≠ "message_created"
    · rw [if_pos he]
    · rw [if_neg he]
      cases hp : parseCommand body with
      | none => rfl
      | some cmd => rfl
  · intro u org rest e hu horgs herr
    simp only [handleCheckinCommand, hu, horgs,
      checkin_error_pair db.store u.id org.id note now e herr]
  · intro u org rest e hu horgs herr
    simp only [handleCheckoutCommand, hu, horgs,
      checkout_error_pair db.store u.id org.id note now e herr]
  · intro v org rest e hv horgs herr
    simp only [slackCheckinCommand, hv, horgs,
      checkin_error_pair db.store v.id org.id (slackNote text) now e herr]
  · intro v org rest e hv horgs herr
    simp only [slackCheckoutCommand, hv, horgs,
      checkout_error_pair db.store v.id org.id (slackNote text) now e herr]

/-- Concrete user linked to both chat platforms, used by witnesses. -/
def userW : User :=
  ⟨"u1", "Alice", "alice@example.com", some "S1", some "C1"⟩

/-- First organization of the witness user. -/
def orgA : Organization :=
  ⟨"oA", "Org A", "org-a"⟩

/-- Second organization of the witness user. -/
def orgB : Organization :=
  ⟨"oB", "Org B", "org-b"⟩

/-- Concrete database where the witness user has two ACTIVE memberships and
the session store is empty. -/
def dbW : DB :=
  ⟨[userW], [orgA, orgB],
    [⟨"u1", "oA", Role.MEMBER, MembershipStatus.ACTIVE⟩,
      ⟨"u1", "oB", Role.MEMBER, MembershipStatus.ACTIVE⟩],
    ⟨[], 0⟩⟩

/-- Witness for `first_organization_targeted`: with two organizations, the
Chatwork checkin stores its new session under the first one. -/
theorem first_organization_targeted_witness :
    findByChatworkUserId dbW "C1" = some userW ∧
    getUserOrganizations dbW "u1" = [orgA, orgB] ∧
    (handleCheckinCommand dbW "C1" (some "hi") 7).2.sessions =
      dbW.store.sessions ++ [⟨dbW.store.nextId, "u1", "oA", 7, none, some "hi"⟩] := by
  refine ⟨by decide, by decide, ?_⟩
  exact (first_organization_targeted dbW "C1" "S1" "Alice" "" (some "hi") 7
    userW userW orgA orgB [] orgA orgB [] (by decide) (by decide) (by decide)
    (by decide)).1 rfl

/-- Witness for `adapter_error_containment`: a checkout with no open
session is rendered as an error reply and the webhook still answers 200. -/
theorem adapter_error_containment_witness :
    (handleWebhook dbW "tok" "tok" "message_created" "C1" "/checkout" 5).status = 200 ∧
    handleCheckoutCommand dbW "C1" none 5 =
      (errorOccurredMsg ++ notCheckedInMsg, dbW.store) := by
  have h := adapter_error_containment dbW "tok" "message_created" "C1" "/checkout" 5
    "C1" "S1" "Alice" "" none
  exact ⟨h.1, h.2.2.1 userW orgA [orgB] notCheckedInMsg (by decide) (by decide) rfl⟩

/-- Witness for `checkin_spec`: a checkin on the empty store creates the
single open session and `getActiveSession` then returns it. -/
theorem checkin_spec_witness :
    checkin ⟨[], 0⟩ "u" "o" (some "office") 900 =
      (.ok ⟨0, "u", "o", 900, none, some "office"⟩,
        ⟨[⟨0, "u", "o", 900, none, some "office"⟩], 1⟩) ∧
    getActiveSession ⟨[⟨0, "u", "o", 900, none, some "office"⟩], 1⟩ "u" "o" =
      some ⟨0, "u", "o", 900, none, some "office"⟩ ∧
    (⟨0, "u", "o", 900, none, some "office"⟩ : WorkingSession).checkoutAt = none :=
  checkin_spec ⟨[], 0⟩ "u" "o" (some "office") 900

/-- Witness for `monthlyReport_spec`: the January 2023 window's end is one
second before the first instant of February 2023. -/
theorem monthlyReport_spec_witness :
    jsDateMs 2023 1 0 23 59 59 = jsDateMs 2023 1 1 0 0 0 - 1000 :=
  (monthlyReport_spec ⟨[], 0⟩ "u" "o" 2023 1).2.2.2

/-- Witness for `sessionsByDateRange_spec`: the membership characterization
at a concrete store and session. -/
theorem sessionsByDateRange_spec_witness :
    openSession1 ∈ getSessionsByDateRange dbOpen1 "u" "o" 0 1000 ↔
      openSession1 ∈ dbOpen1.sessions ∧ openSession1.userId = "u" ∧
        openSession1.organizationId = "o" ∧ 0 ≤ openSession1.checkinAt ∧
        openSession1.checkinAt ≤ 1000 :=
  (sessionsByDateRange_spec dbOpen1 "u" "o" 0 1000).2.2 openSession1
